import Mathlib

/-!
# Trip-Planner rate limiting and session lifecycle: a shallow embedding

This file embeds the rate-limiting subsystem
(`src/trip_planner/core/rate_limiter.py`, the user rate-limit section of
`src/trip_planner/core/auth.py`, the rate-limit gate of `src/app.py`)
and the conversation session registry
(`src/trip_planner/core/session_manager.py`) as executable Lean
definitions, and proves the specification's claims about them.

Conventions of the embedding:
* Python `dict`s become association lists (`List (key × value)`) with
  insertion-order semantics (`dictGet`, `dictInsert`, `dictErase`).
* Calendar dates become `Nat` day numbers; `datetime.now().date()` becomes
  an explicit `today` parameter threaded through every operation.
* The float comparison `count / limit >= threshold` of
  `GlobalDailyLimiter._issue_warning_if_needed` is embedded as the exact
  rational comparison `threshold_key * limit ≤ 100 * count`; the Python
  float keys `int(threshold * 100)` for thresholds `0.5, 0.8, 0.9, 0.95`
  evaluate to exactly `50, 80, 90, 95`, and for every limit below `2^46`
  the float comparison agrees with the rational one.
* `print` side effects that the claims mention (the threshold warnings)
  are returned as an explicit list of emitted threshold keys.
* Random fresh identifiers (`uuid.uuid4().hex[:12]` and the external
  runtime's session handles) are modelled by counters: each call consumes
  a nonce and formats it exactly as the source does (`"conv_"` followed by
  12 lowercase hex characters).
* The external Opik tracing collaborator may fail at any call site; every
  such call site takes an explicit `Bool` telling whether the collaborator
  succeeds there, mirroring the `try/except` blocks that swallow failures.
* Methods that mutate `self` are state-passing functions returning the new
  state; each `threading.Lock`-guarded method body is one atomic step, so
  a concurrent execution is an interleaving of these atomic steps.
-/

/-! ## Python dict as an association list -/

def dictGet {α : Type} (k : String) : List (String × α) → Option α
  | [] => none
  | p :: rest => if k = p.1 then some p.2 else dictGet k rest

def dictInsert {α : Type} (k : String) (v : α) : List (String × α) → List (String × α)
  | [] => [(k, v)]
  | p :: rest => if k = p.1 then (k, v) :: rest else p :: dictInsert k v rest

def dictErase {α : Type} (k : String) : List (String × α) → List (String × α)
  | [] => []
  | p :: rest => if k = p.1 then dictErase k rest else p :: dictErase k rest

/-! ## Global daily limiter (`rate_limiter.py`, `GlobalDailyLimiter`) -/

structure GlobalLimiter where
  dailyLimit : Nat
  count : Nat
  resetDate : Nat
  warningsIssued : List Nat
deriving DecidableEq

def GlobalLimiter.init (dailyLimit today : Nat) : GlobalLimiter :=
  { dailyLimit := dailyLimit, count := 0, resetDate := today, warningsIssued := [] }

/-- `_check_reset`: zero the count and clear issued warnings on a new day. -/
def GlobalLimiter.checkReset (s : GlobalLimiter) (today : Nat) : GlobalLimiter :=
  if s.resetDate < today then
    { s with count := 0, resetDate := today, warningsIssued := [] }
  else s

/-- The threshold keys `int(threshold * 100)` for `[0.5, 0.8, 0.9, 0.95]`. -/
def warnThresholds : List Nat := [50, 80, 90, 95]

/-- One step of the loop body of `_issue_warning_if_needed`: the accumulator
holds (warnings emitted so far this call, warnings issued so far today). -/
def warnStep (limit c : Nat) (acc : List Nat × List Nat) (k : Nat) : List Nat × List Nat :=
  if k * limit ≤ 100 * c ∧ ¬ k ∈ acc.2 then (acc.1 ++ [k], acc.2 ++ [k]) else acc

/-- `_issue_warning_if_needed` at count `c`: returns the list of threshold
keys whose warning is printed by this call, and the updated issued set. -/
def issueWarnings (limit c : Nat) (w : List Nat) : List Nat × List Nat :=
  warnThresholds.foldl (warnStep limit c) ([], w)

/-- `GlobalDailyLimiter.increment`: returns
`((allowed, current_count, remaining), warnings printed, new state)`. -/
def GlobalLimiter.increment (s : GlobalLimiter) (today : Nat) :
    (Bool × Nat × Nat) × List Nat × GlobalLimiter :=
  let s1 := s.checkReset today
  if s1.dailyLimit ≤ s1.count then ((false, s1.count, 0), [], s1)
  else
    let c := s1.count + 1
    let ew := issueWarnings s1.dailyLimit c s1.warningsIssued
    ((true, c, s1.dailyLimit - c), ew.1, { s1 with count := c, warningsIssued := ew.2 })

/-- State of the global limiter after `n` calls from a fresh limiter. -/
def runGlobal (limit today : Nat) : Nat → GlobalLimiter
  | 0 => GlobalLimiter.init limit today
  | n + 1 => ((runGlobal limit today n).increment today).2.2

/-- `(allowed, count, remaining)` returned by the `(i+1)`-th call. -/
def resGlobal (limit today i : Nat) : Bool × Nat × Nat :=
  ((runGlobal limit today i).increment today).1

/-- Threshold warnings printed by the `(i+1)`-th call. -/
def emittedGlobal (limit today i : Nat) : List Nat :=
  ((runGlobal limit today i).increment today).2.1

/-! ## Anonymous limiter (`rate_limiter.py`, `AnonymousLimiter`) -/

structure AnonLimiter where
  freeLimit : Nat
  usage : List (String × Nat)
  resetDate : Nat
deriving DecidableEq

def AnonLimiter.init (freeLimit today : Nat) : AnonLimiter :=
  { freeLimit := freeLimit, usage := [], resetDate := today }

/-- `AnonymousLimiter._check_reset`: clear the whole usage map on a new day. -/
def AnonLimiter.checkReset (s : AnonLimiter) (today : Nat) : AnonLimiter :=
  if s.resetDate < today then { s with usage := [], resetDate := today } else s

/-- `AnonymousLimiter.check_and_increment`. -/
def AnonLimiter.check_and_increment (s : AnonLimiter) (today : Nat) (clientId : String) :
    (Bool × Nat × Nat) × AnonLimiter :=
  let s1 := s.checkReset today
  let count := (dictGet clientId s1.usage).getD 0
  if s1.freeLimit ≤ count then ((false, count, 0), s1)
  else
    ((true, count + 1, s1.freeLimit - (count + 1)),
     { s1 with usage := dictInsert clientId (count + 1) s1.usage })

/-- `AnonymousLimiter.get_remaining` (mutates only via the lazy daily reset). -/
def AnonLimiter.get_remaining (s : AnonLimiter) (today : Nat) (clientId : String) :
    Nat × AnonLimiter :=
  let s1 := s.checkReset today
  let count := (dictGet clientId s1.usage).getD 0
  (max 0 (s1.freeLimit - count), s1)

/-- State of a fresh anonymous limiter after `n` calls for one client. -/
def runAnon (limit today : Nat) (cid : String) : Nat → AnonLimiter
  | 0 => AnonLimiter.init limit today
  | n + 1 => ((runAnon limit today cid n).check_and_increment today cid).2

def resAnon (limit today : Nat) (cid : String) (i : Nat) : Bool × Nat × Nat :=
  ((runAnon limit today cid i).check_and_increment today cid).1

/-- Arbitrary further calls for `cid` from an arbitrary starting state
(used for the independence claim). -/
def iterAnon (today : Nat) (cid : String) (s : AnonLimiter) : Nat → AnonLimiter
  | 0 => s
  | n + 1 => ((iterAnon today cid s n).check_and_increment today cid).2

/-! ## Per-user limiter (`auth.py`, `_user_limits` section) -/

structure UserEntry where
  count : Nat
  resetDate : Nat
deriving DecidableEq

/-- `_reset_user_data_if_needed`. -/
def resetUserEntry (e : UserEntry) (today : Nat) : UserEntry :=
  if e.resetDate ≠ today then { count := 0, resetDate := today } else e

/-- `increment_user_rate_limit`: the map models the module-level
`_user_limits`; in-place mutation of the entry becomes a write-back. -/
def increment_user_rate_limit (m : List (String × UserEntry)) (today : Nat)
    (userId : String) (dailyLimit : Nat) :
    (Bool × Nat × Nat) × List (String × UserEntry) :=
  let m1 := if dictGet userId m = none
            then dictInsert userId { count := 0, resetDate := today } m
            else m
  let e := (dictGet userId m1).getD { count := 0, resetDate := today }
  let e1 := resetUserEntry e today
  if dailyLimit ≤ e1.count then ((false, e1.count, 0), dictInsert userId e1 m1)
  else
    ((true, e1.count + 1, dailyLimit - (e1.count + 1)),
     dictInsert userId { count := e1.count + 1, resetDate := today } m1)

/-- `_user_limits` after `n` calls for one user, starting with no entry. -/
def runUser (limit today : Nat) (uid : String) : Nat → List (String × UserEntry)
  | 0 => []
  | n + 1 => (increment_user_rate_limit (runUser limit today uid n) today uid limit).2

def resUser (limit today : Nat) (uid : String) (i : Nat) : Bool × Nat × Nat :=
  (increment_user_rate_limit (runUser limit today uid i) today uid limit).1

/-! ## Conversation ids: `uuid.uuid4().hex[:12]` -/

/-- Hex digit characters `0-9a-f`, exactly as Python's `%x` formatting. -/
def hexDigitChar (d : Nat) : Char :=
  if d < 10 then Char.ofNat (48 + d) else Char.ofNat (87 + d)

/-- Fixed-width big-endian hex rendering (width `w`) of a number. -/
def toHexFixed : Nat → Nat → List Char
  | 0, _ => []
  | w + 1, n => toHexFixed w (n / 16) ++ [hexDigitChar (n % 16)]

/-- The 12 hex characters `uuid4().hex[:12]` of the fresh random value,
modelled as the fixed-width hex rendering of a fresh nonce. -/
def hex12 (n : Nat) : String := ⟨toHexFixed 12 n⟩

def isHexDigitChar (c : Char) : Bool :=
  (decide ('0' ≤ c) && decide (c ≤ '9')) || (decide ('a' ≤ c) && decide (c ≤ 'f'))

/-! ## Session registry (`session_manager.py`, `SessionManager`)

The external agent runtime's session handles and the Opik trace objects are
modelled by fresh numeric ids drawn from counters in the state.  Every call
into the Opik collaborator takes a `Bool` saying whether that call succeeds
or raises; the `try/except` blocks of the source swallow the failure. -/

structure Session where
  id : Nat
deriving DecidableEq

structure SessionManager where
  current_sessions : List (String × Session)
  conversation_ids : List (String × String)
  conversation_queries : List (String × List (String × String))
  opik_traces : List (String × Nat)
  nextSessionId : Nat
  nextNonce : Nat
  nextTraceId : Nat
deriving DecidableEq

def SessionManager.init : SessionManager :=
  { current_sessions := [], conversation_ids := [], conversation_queries := [],
    opik_traces := [], nextSessionId := 0, nextNonce := 0, nextTraceId := 0 }

/-- `_create_conversation_trace`: on success stores a fresh trace object for
the user; on failure (`except`) the error is printed and nothing stored. -/
def SessionManager.createTrace (s : SessionManager) (traceOk : Bool) (uid : String) :
    SessionManager :=
  if traceOk then
    { s with opik_traces := dictInsert uid s.nextTraceId s.opik_traces,
             nextTraceId := s.nextTraceId + 1 }
  else s

/-- `get_or_create_session`.  `traceOk` is the behaviour of the Opik
collaborator at this call's `_create_conversation_trace`. -/
def SessionManager.get_or_create_session (s : SessionManager) (traceOk : Bool)
    (uid : String) : Session × SessionManager :=
  match dictGet uid s.current_sessions with
  | some sess => (sess, s)
  | none =>
      let sess : Session := { id := s.nextSessionId }
      let cid : String := "conv_" ++ hex12 s.nextNonce
      let s1 : SessionManager :=
        { s with current_sessions := dictInsert uid sess s.current_sessions,
                 conversation_queries := dictInsert uid [] s.conversation_queries,
                 conversation_ids := dictInsert uid cid s.conversation_ids,
                 nextSessionId := s.nextSessionId + 1,
                 nextNonce := s.nextNonce + 1 }
      (sess, s1.createTrace traceOk uid)

/-- `create_new_session`.  `traceEndOk` is the behaviour of the Opik calls in
`_end_conversation_trace` (the trace entry is removed either way), `traceOk`
that of the new `_create_conversation_trace`. -/
def SessionManager.create_new_session (s : SessionManager) (traceEndOk traceOk : Bool)
    (uid : String) : Session × SessionManager :=
  let s0 := { s with opik_traces := dictErase uid s.opik_traces }
  let sess : Session := { id := s0.nextSessionId }
  let cid : String := "conv_" ++ hex12 s0.nextNonce
  let s1 : SessionManager :=
    { s0 with current_sessions := dictInsert uid sess s0.current_sessions,
              conversation_queries := dictInsert uid [] s0.conversation_queries,
              conversation_ids := dictInsert uid cid s0.conversation_ids,
              nextSessionId := s0.nextSessionId + 1,
              nextNonce := s0.nextNonce + 1 }
  (sess, s1.createTrace traceOk uid)

/-- `get_conversation_id`: generates and stores a fresh id when absent. -/
def SessionManager.get_conversation_id (s : SessionManager) (uid : String) :
    String × SessionManager :=
  match dictGet uid s.conversation_ids with
  | some cid => (cid, s)
  | none =>
      let cid : String := "conv_" ++ hex12 s.nextNonce
      (cid, { s with conversation_ids := dictInsert uid cid s.conversation_ids,
                     nextNonce := s.nextNonce + 1 })

/-- `add_query_to_conversation`: creates the log on demand and appends the
truncated pair (`query[:200]`, `response[:500] if response else "No response"`). -/
def SessionManager.add_query_to_conversation (s : SessionManager) (uid q r : String) :
    SessionManager :=
  let log := (dictGet uid s.conversation_queries).getD []
  let entry : String × String :=
    (q.take 200, if r = "" then "No response" else r.take 500)
  { s with conversation_queries := dictInsert uid (log ++ [entry]) s.conversation_queries }

def SessionManager.get_query_count (s : SessionManager) (uid : String) : Nat :=
  ((dictGet uid s.conversation_queries).getD []).length

/-- `create_query_span`: returns a span only when a trace exists and the
collaborator call succeeds; a failure is printed and `None` returned. -/
def SessionManager.create_query_span (s : SessionManager) (spanOk : Bool)
    (uid q : String) (queryNum : Nat) : Option Nat × SessionManager :=
  match dictGet uid s.opik_traces with
  | some t => ((if spanOk then some t else none), s)
  | none => (none, s)

/-- `end_conversation`: best-effort trace update/end (`traceUpdateOk` is the
collaborator's behaviour, swallowed either way), then purge the trace, the
conversation id, the query log and the session handle. -/
def SessionManager.end_conversation (s : SessionManager) (traceUpdateOk : Bool)
    (uid feedback : String) : SessionManager :=
  let s1 := { s with opik_traces := dictErase uid s.opik_traces }
  let s2 := { s1 with conversation_ids := dictErase uid s1.conversation_ids }
  let s3 := { s2 with conversation_queries := dictErase uid s2.conversation_queries }
  { s3 with current_sessions := dictErase uid s3.current_sessions }

/-- The registry view the session-lifecycle claims speak about: session
handles, conversation ids and query logs (the trace store is the external
collaborator's bookkeeping). -/
def regView (s : SessionManager) :
    List (String × Session) × List (String × String) × List (String × List (String × String)) :=
  (s.current_sessions, s.conversation_ids, s.conversation_queries)

/-- Every stored session handle was allocated before the current value of
the fresh-handle counter (holds in every reachable state). -/
def IdsBounded (s : SessionManager) : Prop :=
  ∀ p ∈ s.current_sessions, p.2.id < s.nextSessionId

/-! ## The rate-limit gate of `app.py`'s `handle_query` -/

structure AppState where
  anon : AnonLimiter
  glob : GlobalLimiter
deriving DecidableEq

inductive QueryOutcome
  | rejectedAnon
  | rejectedGlobal
  | proceeds
deriving DecidableEq

/-- The rate-limit prefix of `handle_query`: for anonymous callers the
per-client counter is consulted (and incremented) first and a denial raises
401; then the global daily counter is incremented and a denial raises 429;
otherwise the request proceeds to the agent runner. -/
def handle_query_gate (s : AppState) (today : Nat) (isAuthenticated : Bool)
    (clientId : String) : QueryOutcome × AppState :=
  if isAuthenticated then
    let g := s.glob.increment today
    if g.1.1 then (QueryOutcome.proceeds, { s with glob := g.2.2 })
    else (QueryOutcome.rejectedGlobal, { s with glob := g.2.2 })
  else
    let a := s.anon.check_and_increment today clientId
    if a.1.1 then
      let g := s.glob.increment today
      if g.1.1 then (QueryOutcome.proceeds, { anon := a.2, glob := g.2.2 })
      else (QueryOutcome.rejectedGlobal, { anon := a.2, glob := g.2.2 })
    else (QueryOutcome.rejectedAnon, { s with anon := a.2 })

/-! ### Helper states for the witnesses -/

/-- A registry holding one session for user `"u"`, used as a concrete
witness state. -/
def smW : SessionManager := (SessionManager.init.get_or_create_session true "u").2

/-- A registry holding a dangling query-log entry for `"u"` and no session,
used as a concrete counterexample state. -/
def smDangling : SessionManager :=
  SessionManager.init.add_query_to_conversation "u" "hello" "world"

/-- A gate state whose global daily counter is exhausted (count = limit = 1)
while client `"1.2.3.4"` still has anonymous quota. -/
def appW : AppState :=
  { anon := AnonLimiter.init 5 0,
    glob := { dailyLimit := 1, count := 1, resetDate := 0, warningsIssued := [] } }

/-! ## Association-list lemmas -/

theorem dictGet_dictInsert_self {α : Type} (k : String) (v : α) (m : List (String × α)) :
    dictGet k (dictInsert k v m) = some v := by
  induction m with
  | nil => simp [dictGet, dictInsert]
  | cons p rest ih =>
      by_cases h : k = p.1
      · simp [dictInsert, h, dictGet]
      · simp [dictInsert, h, dictGet, ih]

theorem dictGet_dictInsert_ne {α : Type} {k k' : String} (v : α) (m : List (String × α))
    (h : k ≠ k') : dictGet k (dictInsert k' v m) = dictGet k m := by
  induction m with
  | nil => simp [dictGet, dictInsert, h]
  | cons p rest ih =>
      by_cases h' : k' = p.1
      · subst h'
        simp [dictInsert, dictGet, h]
      · by_cases h'' : k = p.1 <;> simp [dictInsert, h', dictGet, h'', ih]

theorem dictGet_dictErase_self {α : Type} (k : String) (m : List (String × α)) :
    dictGet k (dictErase k m) = none := by
  induction m with
  | nil => simp [dictGet, dictErase]
  | cons p rest ih =>
      by_cases h : k = p.1
      · subst h
        simp [dictErase, ih]
      · simp [dictErase, h, dictGet, ih]

theorem dictErase_dictErase {α : Type} (k : String) (m : List (String × α)) :
    dictErase k (dictErase k m) = dictErase k m := by
  induction m with
  | nil => simp [dictErase]
  | cons p rest ih =>
      by_cases h : k = p.1
      · subst h
        simp [dictErase, ih]
      · simp [dictErase, h, ih]

theorem dictErase_of_dictGet_none {α : Type} {k : String} {m : List (String × α)}
    (h : dictGet k m = none) : dictErase k m = m := by
  induction m with
  | nil => simp [dictErase]
  | cons p rest ih =>
      by_cases h' : k = p.1
      · simp [dictGet, h'] at h
      · simp [dictGet, h'] at h
        simp [dictErase, h', ih h]

theorem dictGet_mem {α : Type} {k : String} {v : α} {m : List (String × α)}
    (h : dictGet k m = some v) : (k, v) ∈ m := by
  induction m with
  | nil => simp [dictGet] at h
  | cons p rest ih =>
      by_cases h' : k = p.1
      · simp [dictGet, h'] at h
        subst h'
        simp [← h]
      · simp [dictGet, h'] at h
        exact List.mem_cons_of_mem _ (ih h)

/-! ## Global daily limiter lemmas -/

theorem globalCheckReset_eq_self {s : GlobalLimiter} {today : Nat}
    (h : s.resetDate = today) : s.checkReset today = s := by
  simp [GlobalLimiter.checkReset, h]

/-- Basic state invariants of a fresh run: the limit and reset date are
unchanged and the count after `n` calls is `min n L`. -/
theorem runGlobal_basic (L today n : Nat) :
    (runGlobal L today n).dailyLimit = L ∧ (runGlobal L today n).resetDate = today ∧
      (runGlobal L today n).count = min n L := by
  induction n with
  | zero => simp [runGlobal, GlobalLimiter.init]
  | succ n ih =>
      obtain ⟨h1, h2, h3⟩ := ih
      by_cases hc : L ≤ min n L
      · have hstep : runGlobal L today (n + 1) = runGlobal L today n := by
          show ((runGlobal L today n).increment today).2.2 = _
          simp only [GlobalLimiter.increment, globalCheckReset_eq_self h2]
          rw [h1, h3, if_pos hc]
        rw [hstep]
        exact ⟨h1, h2, by omega⟩
      · have hstep : runGlobal L today (n + 1) =
            { runGlobal L today n with
                count := min n L + 1,
                warningsIssued :=
                  (issueWarnings L (min n L + 1) ((runGlobal L today n).warningsIssued)).2 } := by
          show ((runGlobal L today n).increment today).2.2 = _
          simp only [GlobalLimiter.increment, globalCheckReset_eq_self h2]
          rw [h1, h3, if_neg hc]
        rw [hstep]
        refine ⟨h1, h2, ?_⟩
        show min n L + 1 = min (n + 1) L
        omega

/-- The `(i+1)`-th call of a same-day run returns
`(allowed, count, remaining) = (i+1 ≤ L, min (i+1) L, L - min (i+1) L)`. -/
theorem resGlobal_eq (L today i : Nat) :
    resGlobal L today i = (decide (i + 1 ≤ L), min (i + 1) L, L - min (i + 1) L) := by
  obtain ⟨h1, h2, h3⟩ := runGlobal_basic L today i
  by_cases hc : L ≤ min i L
  · have hstep : resGlobal L today i = (false, min i L, 0) := by
      show ((runGlobal L today i).increment today).1 = _
      simp only [GlobalLimiter.increment, globalCheckReset_eq_self h2]
      rw [h1, h3, if_pos hc]
    have hd : decide (i + 1 ≤ L) = false := by
      simp only [decide_eq_false_iff_not]
      omega
    rw [hstep, hd]
    simp only [Prod.mk.injEq]
    refine ⟨trivial, by omega, by omega⟩
  · have hstep : resGlobal L today i = (true, min i L + 1, L - (min i L + 1)) := by
      show ((runGlobal L today i).increment today).1 = _
      simp only [GlobalLimiter.increment, globalCheckReset_eq_self h2]
      rw [h1, h3, if_neg hc]
    have hd : decide (i + 1 ≤ L) = true := by
      simp only [decide_eq_true_eq]
      omega
    rw [hstep, hd]
    simp only [Prod.mk.injEq]
    refine ⟨trivial, by omega, by omega⟩

/-- Unrolling the threshold loop of `_issue_warning_if_needed`: with a
duplicate-free threshold list, the loop emits (and marks issued) exactly the
thresholds that are reached at count `c` and not yet in the issued set. -/
theorem warnFold_eq (limit c : Nat) :
    ∀ (ts : List Nat), ts.Nodup → ∀ (e w : List Nat),
      ts.foldl (warnStep limit c) (e, w) =
        (e ++ ts.filter (fun k => decide (k * limit ≤ 100 * c ∧ ¬ k ∈ w)),
         w ++ ts.filter (fun k => decide (k * limit ≤ 100 * c ∧ ¬ k ∈ w))) := by
  intro ts
  induction ts with
  | nil => intro _ e w; simp
  | cons k rest ih =>
      intro hnd e w
      obtain ⟨hk, hrest⟩ := List.nodup_cons.mp hnd
      by_cases h : k * limit ≤ 100 * c ∧ ¬ k ∈ w
      · have hstep : warnStep limit c (e, w) k = (e ++ [k], w ++ [k]) := by
          simp only [warnStep]
          rw [if_pos h]
        rw [List.foldl_cons, hstep, ih hrest]
        have hsame : rest.filter (fun x => decide (x * limit ≤ 100 * c ∧ ¬ x ∈ w ++ [k]))
            = rest.filter (fun x => decide (x * limit ≤ 100 * c ∧ ¬ x ∈ w)) := by
          apply List.filter_congr
          intro x hx
          have hxk : x ≠ k := fun hxy => hk (hxy ▸ hx)
          simp [List.mem_append, hxk]
        rw [hsame]
        have hcons : (k :: rest).filter (fun x => decide (x * limit ≤ 100 * c ∧ ¬ x ∈ w))
            = k :: rest.filter (fun x => decide (x * limit ≤ 100 * c ∧ ¬ x ∈ w)) := by
          rw [List.filter_cons]
          simp [h.1, h.2]
        rw [hcons]
        simp
      · have hstep : warnStep limit c (e, w) k = (e, w) := by
          simp only [warnStep]
          rw [if_neg h]
        rw [List.foldl_cons, hstep, ih hrest]
        have hcons : (k :: rest).filter (fun x => decide (x * limit ≤ 100 * c ∧ ¬ x ∈ w))
            = rest.filter (fun x => decide (x * limit ≤ 100 * c ∧ ¬ x ∈ w)) := by
          rw [List.filter_cons]
          simp only [decide_eq_true_eq]
          rw [if_neg h]
        rw [hcons]

/-- Membership in the issued-warnings set after `n` same-day calls: a
threshold key is recorded exactly when the count has reached it. -/
theorem runGlobal_warned (L today : Nat) (hL : 0 < L) :
    ∀ n k, k ∈ (runGlobal L today n).warningsIssued ↔
      (k ∈ warnThresholds ∧ k * L ≤ 100 * min n L) := by
  intro n
  induction n with
  | zero =>
      intro k
      simp only [runGlobal, GlobalLimiter.init]
      constructor
      · intro h
        simp at h
      · rintro ⟨hmem, hle⟩
        exfalso
        simp [warnThresholds] at hmem
        rcases hmem with h | h | h | h <;> subst h <;> omega
  | succ n ih =>
      intro k
      obtain ⟨h1, h2, h3⟩ := runGlobal_basic L today n
      by_cases hc : L ≤ min n L
      · have hstep : runGlobal L today (n + 1) = runGlobal L today n := by
          show ((runGlobal L today n).increment today).2.2 = _
          simp only [GlobalLimiter.increment, globalCheckReset_eq_self h2]
          rw [h1, h3, if_pos hc]
        rw [hstep, ih k]
        have : min (n + 1) L = min n L := by omega
        rw [this]
      · have hstep : runGlobal L today (n + 1) =
            { runGlobal L today n with
                count := min n L + 1,
                warningsIssued :=
                  (issueWarnings L (min n L + 1) ((runGlobal L today n).warningsIssued)).2 } := by
          show ((runGlobal L today n).increment today).2.2 = _
          simp only [GlobalLimiter.increment, globalCheckReset_eq_self h2]
          rw [h1, h3, if_neg hc]
        rw [hstep]
        show k ∈ (issueWarnings L (min n L + 1) ((runGlobal L today n).warningsIssued)).2 ↔ _
        rw [issueWarnings, warnFold_eq L (min n L + 1) warnThresholds (by decide)]
        simp only [List.mem_append, List.mem_filter, decide_eq_true_eq]
        have hmin : min (n + 1) L = min n L + 1 := by omega
        rw [hmin]
        constructor
        · rintro (hw | ⟨hmem, hle, _⟩)
          · obtain ⟨hmem, hle⟩ := (ih k).mp hw
            exact ⟨hmem, by omega⟩
          · exact ⟨hmem, hle⟩
        · rintro ⟨hmem, hle⟩
          by_cases hw : k ∈ (runGlobal L today n).warningsIssued
          · exact Or.inl hw
          · exact Or.inr ⟨hmem, hle, hw⟩

/-- The warnings printed by the `(i+1)`-th call are exactly the thresholds
first reached at count `i+1` (so each threshold is printed exactly once, on
the first call whose usage ratio reaches it). -/
theorem emittedGlobal_eq (L today : Nat) (hL : 0 < L) (i k : Nat) :
    k ∈ emittedGlobal L today i ↔
      (k ∈ warnThresholds ∧ i + 1 ≤ L ∧ k * L ≤ 100 * (i + 1) ∧ 100 * i < k * L) := by
  obtain ⟨h1, h2, h3⟩ := runGlobal_basic L today i
  by_cases hc : L ≤ min i L
  · have hstep : emittedGlobal L today i = [] := by
      show ((runGlobal L today i).increment today).2.1 = _
      simp only [GlobalLimiter.increment, globalCheckReset_eq_self h2]
      rw [h1, h3, if_pos hc]
    rw [hstep]
    simp only [List.not_mem_nil, false_iff]
    rintro ⟨hmem, hle, _⟩
    omega
  · have hstep : emittedGlobal L today i =
        (issueWarnings L (min i L + 1) ((runGlobal L today i).warningsIssued)).1 := by
      show ((runGlobal L today i).increment today).2.1 = _
      simp only [GlobalLimiter.increment, globalCheckReset_eq_self h2]
      rw [h1, h3, if_neg hc]
    rw [hstep, issueWarnings, warnFold_eq L (min i L + 1) warnThresholds (by decide)]
    simp only [List.nil_append, List.mem_filter, decide_eq_true_eq]
    have hmin : min i L = i := by omega
    rw [hmin]
    constructor
    · rintro ⟨hmem, hle, hnotw⟩
      refine ⟨hmem, by omega, hle, ?_⟩
      by_contra hlt
      exact hnotw ((runGlobal_warned L today hL i k).mpr ⟨hmem, by omega⟩)
    · rintro ⟨hmem, hiL, hle, hgt⟩
      refine ⟨hmem, hle, fun hw => ?_⟩
      obtain ⟨_, hle'⟩ := (runGlobal_warned L today hL i k).mp hw
      omega

/-- Calls beyond the `L`-th leave the limiter state untouched. -/
theorem runGlobal_frozen (L today m : Nat) :
    runGlobal L today (L + m) = runGlobal L today L := by
  induction m with
  | zero => rfl
  | succ m ih =>
      obtain ⟨h1, h2, h3⟩ := runGlobal_basic L today (L + m)
      have hstep : runGlobal L today (L + (m + 1)) = runGlobal L today (L + m) := by
        show ((runGlobal L today (L + m)).increment today).2.2 = _
        simp only [GlobalLimiter.increment, globalCheckReset_eq_self h2]
        rw [h1, h3, if_pos (by omega)]
      rw [hstep, ih]

/-! ## Anonymous limiter lemmas -/

theorem anonCheckReset_eq_self {s : AnonLimiter} {today : Nat}
    (h : s.resetDate = today) : s.checkReset today = s := by
  simp [AnonLimiter.checkReset, h]

/-- State of a fresh run for one client: limit and reset date unchanged, the
usage map holds that client's entry at `min n F` (no entry while zero). -/
theorem runAnon_spec (F today : Nat) (cid : String) (n : Nat) :
    (runAnon F today cid n).freeLimit = F ∧ (runAnon F today cid n).resetDate = today ∧
      (runAnon F today cid n).usage =
        (if min n F = 0 then [] else [(cid, min n F)]) := by
  induction n with
  | zero => simp [runAnon, AnonLimiter.init]
  | succ n ih =>
      obtain ⟨h1, h2, h3⟩ := ih
      have hcount : (dictGet cid (runAnon F today cid n).usage).getD 0 = min n F := by
        rw [h3]
        by_cases hm : min n F = 0
        · rw [if_pos hm, hm]
          rfl
        · rw [if_neg hm]
          simp [dictGet]
      by_cases hc : F ≤ min n F
      · have hstep : runAnon F today cid (n + 1) = runAnon F today cid n := by
          show ((runAnon F today cid n).check_and_increment today cid).2 = _
          simp only [AnonLimiter.check_and_increment, anonCheckReset_eq_self h2]
          rw [hcount, h1, if_pos hc]
        rw [hstep]
        refine ⟨h1, h2, ?_⟩
        rw [h3]
        have : min (n + 1) F = min n F := by omega
        rw [this]
      · have hstep : runAnon F today cid (n + 1) =
            { runAnon F today cid n with
                usage := dictInsert cid (min n F + 1) (runAnon F today cid n).usage } := by
          show ((runAnon F today cid n).check_and_increment today cid).2 = _
          simp only [AnonLimiter.check_and_increment, anonCheckReset_eq_self h2]
          rw [hcount, h1, if_neg hc]
        rw [hstep]
        refine ⟨h1, h2, ?_⟩
        show dictInsert cid (min n F + 1) (runAnon F today cid n).usage = _
        rw [h3]
        by_cases hm : min n F = 0
        · rw [if_pos hm, hm]
          have hone : min (n + 1) F = 1 := by omega
          rw [hone, if_neg (by omega)]
          rfl
        · rw [if_neg hm]
          have hsucc : min (n + 1) F = min n F + 1 := by omega
          rw [hsucc, if_neg (by omega)]
          simp [dictInsert]

/-- The `(i+1)`-th anonymous call for a client returns
`(allowed, count, remaining) = (i+1 ≤ F, min (i+1) F, F - min (i+1) F)`. -/
theorem resAnon_eq (F today : Nat) (cid : String) (i : Nat) :
    resAnon F today cid i = (decide (i + 1 ≤ F), min (i + 1) F, F - min (i + 1) F) := by
  obtain ⟨h1, h2, h3⟩ := runAnon_spec F today cid i
  have hcount : (dictGet cid (runAnon F today cid i).usage).getD 0 = min i F := by
    rw [h3]
    by_cases hm : min i F = 0
    · rw [if_pos hm, hm]
      rfl
    · rw [if_neg hm]
      simp [dictGet]
  by_cases hc : F ≤ min i F
  · have hstep : resAnon F today cid i = (false, min i F, 0) := by
      show ((runAnon F today cid i).check_and_increment today cid).1 = _
      simp only [AnonLimiter.check_and_increment, anonCheckReset_eq_self h2]
      rw [hcount, h1, if_pos hc]
    have hd : decide (i + 1 ≤ F) = false := by
      simp only [decide_eq_false_iff_not]
      omega
    rw [hstep, hd]
    simp only [Prod.mk.injEq]
    refine ⟨trivial, by omega, by omega⟩
  · have hstep : resAnon F today cid i = (true, min i F + 1, F - (min i F + 1)) := by
      show ((runAnon F today cid i).check_and_increment today cid).1 = _
      simp only [AnonLimiter.check_and_increment, anonCheckReset_eq_self h2]
      rw [hcount, h1, if_neg hc]
    have hd : decide (i + 1 ≤ F) = true := by
      simp only [decide_eq_true_eq]
      omega
    rw [hstep, hd]
    simp only [Prod.mk.injEq]
    refine ⟨trivial, by omega, by omega⟩

/-- Denied anonymous calls mutate nothing: past the limit the state of the
fresh run is frozen. -/
theorem runAnon_frozen (F today : Nat) (cid : String) (m : Nat) :
    runAnon F today cid (F + m) = runAnon F today cid F := by
  induction m with
  | zero => rfl
  | succ m ih =>
      obtain ⟨h1, h2, h3⟩ := runAnon_spec F today cid (F + m)
      have hcount : (dictGet cid (runAnon F today cid (F + m)).usage).getD 0
          = min (F + m) F := by
        rw [h3]
        by_cases hm : min (F + m) F = 0
        · rw [if_pos hm, hm]
          rfl
        · rw [if_neg hm]
          simp [dictGet]
      have hstep : runAnon F today cid (F + (m + 1)) = runAnon F today cid (F + m) := by
        show ((runAnon F today cid (F + m)).check_and_increment today cid).2 = _
        simp only [AnonLimiter.check_and_increment, anonCheckReset_eq_self h2]
        rw [hcount, h1, if_pos (by omega)]
      rw [hstep, ih]

/-! ## Hex-rendering lemmas -/

theorem toHexFixed_length (w : Nat) : ∀ n, (toHexFixed w n).length = w := by
  induction w with
  | zero => intro n; rfl
  | succ w ih =>
      intro n
      simp [toHexFixed, ih]

theorem hexDigitChar_isHex {d : Nat} (hd : d < 16) :
    isHexDigitChar (hexDigitChar d) = true := by
  interval_cases d <;> decide

theorem toHexFixed_hex (w : Nat) : ∀ n c, c ∈ toHexFixed w n → isHexDigitChar c = true := by
  induction w with
  | zero =>
      intro n c hc
      simp [toHexFixed] at hc
  | succ w ih =>
      intro n c hc
      simp only [toHexFixed, List.mem_append, List.mem_singleton] at hc
      rcases hc with hc | hc
      · exact ih _ _ hc
      · subst hc
        exact hexDigitChar_isHex (Nat.mod_lt _ (by omega))

theorem hex12_length (n : Nat) : (hex12 n).data.length = 12 :=
  toHexFixed_length 12 n

theorem hex12_hex (n : Nat) : ∀ c ∈ (hex12 n).data, isHexDigitChar c = true :=
  fun c hc => toHexFixed_hex 12 n c hc

/-! ## Counting lemmas for the concurrency claim -/

theorem countP_range_le (L N : Nat) :
    (List.range N).countP (fun i => decide (i + 1 ≤ L)) = min L N := by
  induction N with
  | zero => simp
  | succ N ih =>
      rw [List.range_succ, List.countP_append, ih]
      by_cases h : N + 1 ≤ L
      · simp [List.countP_cons, h]
        omega
      · simp [List.countP_cons, h]
        omega

theorem countP_range_not (L N : Nat) :
    (List.range N).countP (fun i => !decide (i + 1 ≤ L)) = N - min L N := by
  induction N with
  | zero => simp
  | succ N ih =>
      rw [List.range_succ, List.countP_append, ih]
      by_cases h : N + 1 ≤ L
      · simp [List.countP_cons, h]
        omega
      · simp [List.countP_cons, h]
        omega

/-! ## Per-user limiter lemmas -/

/-- `_user_limits` after `n+1` same-day calls holds exactly the one entry at
count `min (n+1) L`. -/
theorem runUser_spec (L today : Nat) (uid : String) (n : Nat) :
    runUser L today uid (n + 1) = [(uid, { count := min (n + 1) L, resetDate := today })] := by
  induction n with
  | zero =>
      show (increment_user_rate_limit [] today uid L).2 = _
      simp only [increment_user_rate_limit, dictGet, dictInsert, resetUserEntry,
        Option.getD_some, if_true, ne_eq, not_true_eq_false, if_false, ite_not]
      by_cases hL : L = 0
      · subst hL
        simp [dictInsert]
      · have hnot : ¬ (L ≤ 0) := by omega
        have hone : min (0 + 1) L = 1 := by omega
        simp [hnot, dictInsert, hone]
  | succ n ih =>
      show (increment_user_rate_limit (runUser L today uid (n + 1)) today uid L).2 = _
      rw [ih]
      simp only [increment_user_rate_limit, dictGet, resetUserEntry,
        Option.getD_some, ne_eq, ite_not]
      by_cases hc : L ≤ min (n + 1) L
      · have h2L : min (n + 1 + 1) L = min (n + 1) L := by omega
        simp [hc, dictInsert, h2L]
      · have h2L : min (n + 1 + 1) L = min (n + 1) L + 1 := by omega
        simp [hc, dictInsert, h2L]

/-- The `(i+1)`-th per-user call returns
`(allowed, count, remaining) = (i+1 ≤ L, min (i+1) L, L - min (i+1) L)`. -/
theorem resUser_eq (L today : Nat) (uid : String) (i : Nat) :
    resUser L today uid i = (decide (i + 1 ≤ L), min (i + 1) L, L - min (i + 1) L) := by
  cases i with
  | zero =>
      show (increment_user_rate_limit [] today uid L).1 = _
      simp only [increment_user_rate_limit, dictGet, dictInsert, resetUserEntry,
        Option.getD_some, ne_eq, ite_not]
      by_cases hL : L = 0
      · subst hL
        simp
      · have hnot : ¬ (L ≤ 0) := by omega
        have hone : min (0 + 1) L = 1 := by omega
        have hd : decide (0 + 1 ≤ L) = true := by
          simp only [decide_eq_true_eq]
          omega
        simp [hnot, hone, hd]
  | succ n =>
      show (increment_user_rate_limit (runUser L today uid (n + 1)) today uid L).1 = _
      rw [runUser_spec]
      simp only [increment_user_rate_limit, dictGet, resetUserEntry,
        Option.getD_some, ne_eq, ite_not]
      by_cases hc : L ≤ n + 1
      · have hd : decide (n + 1 + 1 ≤ L) = false := by
          simp only [decide_eq_false_iff_not]
          omega
        have hmin : (n + 1) ⊓ L = L := by omega
        have hmin2 : (n + 1 + 1) ⊓ L = L := by omega
        simp [increment_user_rate_limit, dictGet, dictInsert, resetUserEntry,
          hmin, hmin2, hc, hd]
      · have hd : decide (n + 1 + 1 ≤ L) = true := by
          simp only [decide_eq_true_eq]
          omega
        have hmin : (n + 1) ⊓ L = n + 1 := by omega
        have hmin2 : (n + 1 + 1) ⊓ L = n + 2 := by omega
        simp [increment_user_rate_limit, dictGet, dictInsert, resetUserEntry,
          hmin, hmin2, hc, hd]

/-! ## Anonymous limiter: independence lemmas -/

theorem get_remaining_eq (s : AnonLimiter) (today : Nat) (cid : String)
    (hd : s.resetDate = today) :
    s.get_remaining today cid = (max 0 (s.freeLimit - (dictGet cid s.usage).getD 0), s) := by
  simp only [AnonLimiter.get_remaining, anonCheckReset_eq_self hd]

/-- One `check_and_increment` for client `c1` on the same day never touches a
different client's entry, the limit, or the reset date. -/
theorem check_and_increment_other (s : AnonLimiter) (today : Nat) (c1 c2 : String)
    (hne : c1 ≠ c2) (hd : s.resetDate = today) :
    ((s.check_and_increment today c1).2).resetDate = today
  ∧ ((s.check_and_increment today c1).2).freeLimit = s.freeLimit
  ∧ dictGet c2 ((s.check_and_increment today c1).2).usage = dictGet c2 s.usage := by
  simp only [AnonLimiter.check_and_increment, anonCheckReset_eq_self hd]
  by_cases hc : s.freeLimit ≤ (dictGet c1 s.usage).getD 0
  · rw [if_pos hc]
    exact ⟨hd, rfl, rfl⟩
  · rw [if_neg hc]
    exact ⟨hd, rfl, dictGet_dictInsert_ne _ _ (Ne.symm hne)⟩

theorem iterAnon_other (today : Nat) (c1 c2 : String) (s : AnonLimiter) (n : Nat)
    (hne : c1 ≠ c2) (hd : s.resetDate = today) :
    (iterAnon today c1 s n).resetDate = today
  ∧ (iterAnon today c1 s n).freeLimit = s.freeLimit
  ∧ dictGet c2 (iterAnon today c1 s n).usage = dictGet c2 s.usage := by
  induction n with
  | zero => exact ⟨hd, rfl, rfl⟩
  | succ n ih =>
      obtain ⟨h1, h2, h3⟩ := ih
      obtain ⟨g1, g2, g3⟩ := check_and_increment_other (iterAnon today c1 s n) today c1 c2 hne h1
      exact ⟨g1, g2.trans h2, g3.trans h3⟩

/-! ## Session registry lemmas -/

theorem createTrace_regView (s : SessionManager) (b : Bool) (uid : String) :
    regView (s.createTrace b uid) = regView s := by
  cases b <;> simp [SessionManager.createTrace, regView]

theorem createTrace_sessions (s : SessionManager) (b : Bool) (uid : String) :
    (s.createTrace b uid).current_sessions = s.current_sessions := by
  cases b <;> simp [SessionManager.createTrace]

theorem createTrace_convIds (s : SessionManager) (b : Bool) (uid : String) :
    (s.createTrace b uid).conversation_ids = s.conversation_ids := by
  cases b <;> simp [SessionManager.createTrace]

theorem createTrace_queries (s : SessionManager) (b : Bool) (uid : String) :
    (s.createTrace b uid).conversation_queries = s.conversation_queries := by
  cases b <;> simp [SessionManager.createTrace]

theorem createTrace_nextNonce (s : SessionManager) (b : Bool) (uid : String) :
    (s.createTrace b uid).nextNonce = s.nextNonce := by
  cases b <;> simp [SessionManager.createTrace]

/-! ## Claim theorems -/

/-- C1: For every daily counter created fresh with limit `L` (the global
daily limiter, an anonymous client's entry, or a per-user entry), a
same-day sequence of check-and-increment calls has the `(i+1)`-th call
return `allowed = (i+1 ≤ L)` with count `min (i+1) L` (the 1-based index
while allowed) and `remaining = L - count`; denied calls leave the stored
state frozen with the count at `L`. -/
theorem claim_c1_daily_counter (L today i n m : Nat) (cid uid : String) :
    resGlobal L today i = (decide (i + 1 ≤ L), min (i + 1) L, L - min (i + 1) L)
  ∧ runGlobal L today (L + m) = runGlobal L today L
  ∧ resAnon L today cid i = (decide (i + 1 ≤ L), min (i + 1) L, L - min (i + 1) L)
  ∧ runAnon L today cid (L + m) = runAnon L today cid L
  ∧ resUser L today uid i = (decide (i + 1 ≤ L), min (i + 1) L, L - min (i + 1) L)
  ∧ runUser L today uid (n + 1) = [(uid, { count := min (n + 1) L, resetDate := today })] :=
  ⟨resGlobal_eq L today i, runGlobal_frozen L today m, resAnon_eq L today cid i,
   runAnon_frozen L today cid m, resUser_eq L today uid i, runUser_spec L today uid n⟩

/-- C4: during one day, each warning threshold in {50%, 80%, 90%, 95%} is
announced exactly once: the `(i+1)`-th successful increment emits threshold
`k` precisely when the usage ratio first reaches `k`% at count `i+1`, and a
threshold can be emitted at no two distinct calls. -/
theorem claim_c4_warning_thresholds (L today i j k : Nat) (hL : 0 < L) :
    (k ∈ emittedGlobal L today i ↔
      (k ∈ warnThresholds ∧ i + 1 ≤ L ∧ k * L ≤ 100 * (i + 1) ∧ 100 * i < k * L))
  ∧ (k ∈ emittedGlobal L today i → k ∈ emittedGlobal L today j → i = j) := by
  refine ⟨emittedGlobal_eq L today hL i k, ?_⟩
  intro hi hj
  obtain ⟨_, _, hle1, hgt1⟩ := (emittedGlobal_eq L today hL i k).mp hi
  obtain ⟨_, _, hle2, hgt2⟩ := (emittedGlobal_eq L today hL j k).mp hj
  omega

theorem claim_c4_warning_thresholds_witness :
    0 < 2 ∧
      ((50 ∈ emittedGlobal 2 0 0 ↔
         (50 ∈ warnThresholds ∧ 0 + 1 ≤ 2 ∧ 50 * 2 ≤ 100 * (0 + 1) ∧ 100 * 0 < 50 * 2))
       ∧ (50 ∈ emittedGlobal 2 0 0 → 50 ∈ emittedGlobal 2 0 0 → 0 = 0)) :=
  ⟨by decide, claim_c4_warning_thresholds 2 0 0 0 50 (by decide)⟩

/-- C9: each limiter method holds its lock for the whole
reset-check-increment sequence, so every call is one atomic step and a
concurrent execution of `N` identical calls is their sequential
interleaving; among `N > L` calls exactly `L` observe `allowed = true`,
`N - L` observe `false`, and the final stored count is exactly `L`. -/
theorem claim_c9_concurrent_exact (L N today : Nat) (uid : String) (h : L < N) :
    (List.range N).countP (fun i => (resGlobal L today i).1) = L
  ∧ (List.range N).countP (fun i => !(resGlobal L today i).1) = N - L
  ∧ (runGlobal L today N).count = L
  ∧ (List.range N).countP (fun i => (resUser L today uid i).1) = L
  ∧ (List.range N).countP (fun i => !(resUser L today uid i).1) = N - L
  ∧ runUser L today uid N = [(uid, { count := L, resetDate := today })] := by
  have hg : ∀ i ∈ List.range N,
      ((resGlobal L today i).1 = true ↔ decide (i + 1 ≤ L) = true) := by
    intro i _
    rw [resGlobal_eq]
  have hgn : ∀ i ∈ List.range N,
      ((!(resGlobal L today i).1) = true ↔ (!decide (i + 1 ≤ L)) = true) := by
    intro i _
    rw [resGlobal_eq]
  have hu : ∀ i ∈ List.range N,
      ((resUser L today uid i).1 = true ↔ decide (i + 1 ≤ L) = true) := by
    intro i _
    rw [resUser_eq]
  have hun : ∀ i ∈ List.range N,
      ((!(resUser L today uid i).1) = true ↔ (!decide (i + 1 ≤ L)) = true) := by
    intro i _
    rw [resUser_eq]
  refine ⟨?_, ?_, ?_, ?_, ?_, ?_⟩
  · rw [List.countP_congr hg, countP_range_le]
    omega
  · rw [List.countP_congr hgn, countP_range_not]
    omega
  · obtain ⟨_, _, h3⟩ := runGlobal_basic L today N
    rw [h3]
    omega
  · rw [List.countP_congr hu, countP_range_le]
    omega
  · rw [List.countP_congr hun, countP_range_not]
    omega
  · obtain ⟨M, rfl⟩ : ∃ M, N = M + 1 := ⟨N - 1, by omega⟩
    rw [runUser_spec]
    have : min (M + 1) L = L := by omega
    rw [this]

theorem claim_c9_concurrent_exact_witness :
    1 < 3 ∧
      ((List.range 3).countP (fun i => (resGlobal 1 0 i).1) = 1
       ∧ (List.range 3).countP (fun i => !(resGlobal 1 0 i).1) = 3 - 1
       ∧ (runGlobal 1 0 3).count = 1
       ∧ (List.range 3).countP (fun i => (resUser 1 0 "u" i).1) = 1
       ∧ (List.range 3).countP (fun i => !(resUser 1 0 "u" i).1) = 3 - 1
       ∧ runUser 1 0 "u" 3 = [("u", { count := 1, resetDate := 0 })]) :=
  ⟨by decide, claim_c9_concurrent_exact 1 3 0 "u" (by decide)⟩

/-- C3: for an anonymous request, `handle_query` increments the per-client
anonymous counter before consulting the global daily counter; when the
anonymous check passes but the global counter is already at its limit the
request is rejected (HTTP 429) while the client's anonymous count stays
incremented, and the global count is unchanged — the consumed anonymous
quota unit is not refunded. -/
theorem claim_c3_no_refund (today : Nat) (clientId : String) (s : AppState)
    (hA : (dictGet clientId s.anon.usage).getD 0 < s.anon.freeLimit)
    (hG : s.glob.dailyLimit ≤ s.glob.count)
    (hdA : s.anon.resetDate = today)
    (hdG : s.glob.resetDate = today) :
    (handle_query_gate s today false clientId).1 = QueryOutcome.rejectedGlobal
  ∧ (dictGet clientId ((handle_query_gate s today false clientId).2).anon.usage).getD 0
      = (dictGet clientId s.anon.usage).getD 0 + 1
  ∧ ((handle_query_gate s today false clientId).2).glob.count = s.glob.count := by
  have hanon : s.anon.check_and_increment today clientId =
      ((true, (dictGet clientId s.anon.usage).getD 0 + 1,
        s.anon.freeLimit - ((dictGet clientId s.anon.usage).getD 0 + 1)),
       { s.anon with
           usage := dictInsert clientId ((dictGet clientId s.anon.usage).getD 0 + 1)
                      s.anon.usage }) := by
    simp only [AnonLimiter.check_and_increment, anonCheckReset_eq_self hdA]
    rw [if_neg (by omega)]
  have hglob : s.glob.increment today = ((false, s.glob.count, 0), [], s.glob) := by
    simp only [GlobalLimiter.increment, globalCheckReset_eq_self hdG]
    rw [if_pos hG]
  simp [handle_query_gate, hanon, hglob, dictGet_dictInsert_self]

theorem claim_c3_no_refund_witness :
    (dictGet "1.2.3.4" appW.anon.usage).getD 0 < appW.anon.freeLimit
  ∧ appW.glob.dailyLimit ≤ appW.glob.count
  ∧ appW.anon.resetDate = 0
  ∧ appW.glob.resetDate = 0
  ∧ ((handle_query_gate appW 0 false "1.2.3.4").1 = QueryOutcome.rejectedGlobal
     ∧ (dictGet "1.2.3.4" ((handle_query_gate appW 0 false "1.2.3.4").2).anon.usage).getD 0
         = (dictGet "1.2.3.4" appW.anon.usage).getD 0 + 1
     ∧ ((handle_query_gate appW 0 false "1.2.3.4").2).glob.count = appW.glob.count) :=
  ⟨by decide, by decide, by decide, by decide,
   claim_c3_no_refund 0 "1.2.3.4" appW (by decide) (by decide) (by decide) (by decide)⟩

/-- C7: distinct anonymous clients have independent counters — any same-day
sequence of `check_and_increment` calls for one client leaves the other
client's stored entry and its `get_remaining` value unchanged; the
`get_remaining` lookup is non-mutating on the same day, and an unseen client
reports the full free limit. -/
theorem claim_c7_client_independence (today n : Nat) (c1 c2 : String) (s : AnonLimiter)
    (hne : c1 ≠ c2) (hd : s.resetDate = today) :
    dictGet c2 (iterAnon today c1 s n).usage = dictGet c2 s.usage
  ∧ ((iterAnon today c1 s n).get_remaining today c2).1 = (s.get_remaining today c2).1
  ∧ (s.get_remaining today c2).2 = s
  ∧ (dictGet c2 s.usage = none → (s.get_remaining today c2).1 = s.freeLimit) := by
  obtain ⟨h1, h2, h3⟩ := iterAnon_other today c1 c2 s n hne hd
  refine ⟨h3, ?_, ?_, ?_⟩
  · rw [get_remaining_eq _ _ _ h1, get_remaining_eq _ _ _ hd]
    simp [h2, h3]
  · rw [get_remaining_eq _ _ _ hd]
  · intro hnone
    rw [get_remaining_eq _ _ _ hd]
    simp [hnone]

theorem claim_c7_client_independence_witness :
    ("1.2.3.4" : String) ≠ "5.6.7.8"
  ∧ (AnonLimiter.init 5 0).resetDate = 0
  ∧ (dictGet "5.6.7.8" (iterAnon 0 "1.2.3.4" (AnonLimiter.init 5 0) 7).usage
       = dictGet "5.6.7.8" (AnonLimiter.init 5 0).usage
     ∧ ((iterAnon 0 "1.2.3.4" (AnonLimiter.init 5 0) 7).get_remaining 0 "5.6.7.8").1
         = ((AnonLimiter.init 5 0).get_remaining 0 "5.6.7.8").1
     ∧ ((AnonLimiter.init 5 0).get_remaining 0 "5.6.7.8").2 = AnonLimiter.init 5 0
     ∧ (dictGet "5.6.7.8" (AnonLimiter.init 5 0).usage = none →
          ((AnonLimiter.init 5 0).get_remaining 0 "5.6.7.8").1
            = (AnonLimiter.init 5 0).freeLimit)) :=
  ⟨by decide, rfl,
   claim_c7_client_independence 0 7 "1.2.3.4" "5.6.7.8" (AnonLimiter.init 5 0)
     (by decide) rfl⟩

/-- C2 counterexample: with no prior `get_or_create_session` (so no ACTIVE
session for `"u"`), `add_query_to_conversation` is not a no-op — the query
count becomes 1, not 0 as the claim states. -/
theorem claim_c2_counterexample :
    dictGet "u" SessionManager.init.current_sessions = none
  ∧ (SessionManager.init.add_query_to_conversation "u" "hello" "world").get_query_count "u"
      ≠ 0 := by
  refine ⟨rfl, ?_⟩
  decide

/-- C2 (amended): for a userId with no ACTIVE session and no query log,
`add_query_to_conversation` is not a no-op and emits no warning: it creates
the log for that userId and appends the truncated pair, so the query count
becomes 1. -/
theorem claim_c2_record_without_session (uid q r : String) (s : SessionManager)
    (hs : dictGet uid s.current_sessions = none)
    (hq : dictGet uid s.conversation_queries = none) :
    (s.add_query_to_conversation uid q r).get_query_count uid = 1
  ∧ dictGet uid (s.add_query_to_conversation uid q r).conversation_queries
      = some [(q.take 200, if r = "" then "No response" else r.take 500)] := by
  have hstate : s.add_query_to_conversation uid q r =
      { s with conversation_queries := dictInsert uid ([] ++ [(q.take 200, if r = "" then "No response" else r.take 500)]) s.conversation_queries } := by
    simp only [SessionManager.add_query_to_conversation, hq, Option.getD_none]
  rw [hstate]
  constructor
  · show ((dictGet uid (dictInsert uid _ s.conversation_queries)).getD []).length = 1
    rw [dictGet_dictInsert_self]
    rfl
  · show dictGet uid (dictInsert uid _ s.conversation_queries) = _
    rw [dictGet_dictInsert_self]
    rfl

theorem claim_c2_record_without_session_witness :
    dictGet "u" SessionManager.init.current_sessions = none
  ∧ dictGet "u" SessionManager.init.conversation_queries = none
  ∧ ((SessionManager.init.add_query_to_conversation "u" "hi" "yo").get_query_count "u" = 1
     ∧ dictGet "u"
         (SessionManager.init.add_query_to_conversation "u" "hi" "yo").conversation_queries
       = some [("hi".take 200, if "yo" = "" then "No response" else "yo".take 500)]) :=
  ⟨rfl, rfl, claim_c2_record_without_session "u" "hi" "yo" SessionManager.init rfl rfl⟩

theorem get_or_create_existing (x : SessionManager) (t : Bool) (uid : String) (sess : Session)
    (h : dictGet uid x.current_sessions = some sess) :
    x.get_or_create_session t uid = (sess, x) := by
  simp only [SessionManager.get_or_create_session, h]

/-- C5: `get_or_create_session` called twice with no intervening teardown
returns the identical handle and leaves the registry unchanged on the
second call; `create_new_session` always yields a handle distinct from the
prior one (fresh handles come from a strictly increasing allocator, so any
state whose stored handles are below the allocation counter — an invariant
of every reachable state — gives a new handle), generates a fresh
conversation id from the next nonce, and resets the user's query log to
empty. -/
theorem claim_c5_session_identity (t1 t2 e c : Bool) (uid : String)
    (r s : SessionManager) (prev : Session)
    (hb : IdsBounded s) (hprev : dictGet uid s.current_sessions = some prev) :
    ((r.get_or_create_session t1 uid).2).get_or_create_session t2 uid
        = ((r.get_or_create_session t1 uid).1, (r.get_or_create_session t1 uid).2)
  ∧ (s.create_new_session e c uid).1 ≠ prev
  ∧ dictGet uid ((s.create_new_session e c uid).2).conversation_queries = some []
  ∧ dictGet uid ((s.create_new_session e c uid).2).conversation_ids
      = some ("conv_" ++ hex12 s.nextNonce)
  ∧ ((s.create_new_session e c uid).2).nextNonce = s.nextNonce + 1 := by
  refine ⟨?_, ?_, ?_, ?_, ?_⟩
  · cases hmatch : dictGet uid r.current_sessions with
    | some sess =>
        have hfst : r.get_or_create_session t1 uid = (sess, r) :=
          get_or_create_existing r t1 uid sess hmatch
        rw [hfst]
        exact get_or_create_existing r t2 uid sess hmatch
    | none =>
        have hget : dictGet uid ((r.get_or_create_session t1 uid).2).current_sessions
            = some { id := r.nextSessionId } := by
          simp only [SessionManager.get_or_create_session, hmatch]
          rw [createTrace_sessions]
          exact dictGet_dictInsert_self _ _ _
        have hfst : (r.get_or_create_session t1 uid).1 = { id := r.nextSessionId } := by
          simp only [SessionManager.get_or_create_session, hmatch]
        rw [get_or_create_existing _ t2 uid _ hget, hfst]
  · intro heq
    have hmem := dictGet_mem hprev
    have hlt := hb _ hmem
    have hid : (s.create_new_session e c uid).1 = { id := s.nextSessionId } := rfl
    rw [hid] at heq
    have : prev.id = s.nextSessionId := by rw [← heq]
    simp at hlt
    omega
  · show dictGet uid (((SessionManager.createTrace _ c uid)).conversation_queries) = some []
    rw [createTrace_queries]
    exact dictGet_dictInsert_self _ _ _
  · show dictGet uid (((SessionManager.createTrace _ c uid)).conversation_ids) = _
    rw [createTrace_convIds]
    exact dictGet_dictInsert_self _ _ _
  · show ((SessionManager.createTrace _ c uid)).nextNonce = s.nextNonce + 1
    rw [createTrace_nextNonce]

theorem claim_c5_session_identity_witness :
    IdsBounded smW
  ∧ dictGet "u" smW.current_sessions = some { id := 0 }
  ∧ (((SessionManager.init.get_or_create_session true "u").2).get_or_create_session true "u"
        = ((SessionManager.init.get_or_create_session true "u").1,
           (SessionManager.init.get_or_create_session true "u").2)
     ∧ (smW.create_new_session true true "u").1 ≠ { id := 0 }
     ∧ dictGet "u" ((smW.create_new_session true true "u").2).conversation_queries = some []
     ∧ dictGet "u" ((smW.create_new_session true true "u").2).conversation_ids
         = some ("conv_" ++ hex12 smW.nextNonce)
     ∧ ((smW.create_new_session true true "u").2).nextNonce = smW.nextNonce + 1) :=
  ⟨(by decide : ∀ p ∈ smW.current_sessions, p.2.id < smW.nextSessionId), by decide,
   claim_c5_session_identity true true true true "u" SessionManager.init smW { id := 0 }
     (by decide : ∀ p ∈ smW.current_sessions, p.2.id < smW.nextSessionId) (by decide)⟩

/-- C6 counterexample: the registry can hold conversation data for a user
with no ACTIVE session (here a dangling query log created by
`add_query_to_conversation`); `end_conversation` for that user is then not
a no-op — it removes the dangling entry — so "when no session is active,
end leaves the registry unchanged" fails as stated. -/
theorem claim_c6_counterexample :
    dictGet "u" smDangling.current_sessions = none
  ∧ smDangling.end_conversation true "u" "done" ≠ smDangling := by
  refine ⟨rfl, ?_⟩
  intro h
  have hq := congrArg (fun st => st.conversation_queries.length) h
  simp [smDangling, SessionManager.end_conversation,
    SessionManager.add_query_to_conversation, SessionManager.init,
    dictErase, dictInsert, dictGet] at hq

/-- C6 (amended): `end_conversation` purges the conversation id, the query
log and the session handle, so a subsequent query count is 0; it raises no
error in any state, and it is idempotent — a second `end` right after is a
no-op, and ending is a no-op when the user has no session *and* no dangling
conversation data (if dangling conversation data exists without a session,
`end` removes it, so the registry does change). -/
theorem claim_c6_end_idempotent (u1 u2 : Bool) (uid fb fb2 : String)
    (r s : SessionManager)
    (hs : dictGet uid s.current_sessions = none)
    (hc : dictGet uid s.conversation_ids = none)
    (hq : dictGet uid s.conversation_queries = none)
    (ht : dictGet uid s.opik_traces = none) :
    (r.end_conversation u1 uid fb).get_query_count uid = 0
  ∧ dictGet uid (r.end_conversation u1 uid fb).conversation_ids = none
  ∧ dictGet uid (r.end_conversation u1 uid fb).current_sessions = none
  ∧ dictGet uid (r.end_conversation u1 uid fb).conversation_queries = none
  ∧ (r.end_conversation u1 uid fb).end_conversation u2 uid fb2
      = r.end_conversation u1 uid fb
  ∧ s.end_conversation u1 uid fb = s := by
  refine ⟨?_, ?_, ?_, ?_, ?_, ?_⟩
  · show ((dictGet uid (dictErase uid r.conversation_queries)).getD []).length = 0
    rw [dictGet_dictErase_self]
    rfl
  · exact dictGet_dictErase_self _ _
  · exact dictGet_dictErase_self _ _
  · exact dictGet_dictErase_self _ _
  · show SessionManager.end_conversation _ u2 uid fb2 = _
    simp only [SessionManager.end_conversation]
    rw [dictErase_dictErase, dictErase_dictErase, dictErase_dictErase, dictErase_dictErase]
  · simp only [SessionManager.end_conversation]
    rw [dictErase_of_dictGet_none ht, dictErase_of_dictGet_none hc,
      dictErase_of_dictGet_none hq, dictErase_of_dictGet_none hs]

theorem claim_c6_end_idempotent_witness :
    dictGet "u" SessionManager.init.current_sessions = none
  ∧ dictGet "u" SessionManager.init.conversation_ids = none
  ∧ dictGet "u" SessionManager.init.conversation_queries = none
  ∧ dictGet "u" SessionManager.init.opik_traces = none
  ∧ ((smDangling.end_conversation true "u" "bye").get_query_count "u" = 0
     ∧ dictGet "u" (smDangling.end_conversation true "u" "bye").conversation_ids = none
     ∧ dictGet "u" (smDangling.end_conversation true "u" "bye").current_sessions = none
     ∧ dictGet "u" (smDangling.end_conversation true "u" "bye").conversation_queries = none
     ∧ (smDangling.end_conversation true "u" "bye").end_conversation false "u" "x"
         = smDangling.end_conversation true "u" "bye"
     ∧ SessionManager.init.end_conversation true "u" "bye" = SessionManager.init) :=
  ⟨rfl, rfl, rfl, rfl,
   claim_c6_end_idempotent true false "u" "bye" "x" smDangling SessionManager.init
     rfl rfl rfl rfl⟩

/-- C8: a failure of the external tracing collaborator at any call site
(creating a conversation trace, ending one, creating a query span) is
swallowed inside the registry: every operation completes and returns the
same session handle, and the registry view (session handles, conversation
ids, query logs) is identical to the one produced when tracing succeeds. -/
theorem claim_c8_tracing_isolated (b1 b2 e1 c1 e2 c2 u1 u2 sp : Bool)
    (uid q fb : String) (qn : Nat) (s : SessionManager) :
    (s.get_or_create_session b1 uid).1 = (s.get_or_create_session b2 uid).1
  ∧ regView (s.get_or_create_session b1 uid).2 = regView (s.get_or_create_session b2 uid).2
  ∧ (s.create_new_session e1 c1 uid).1 = (s.create_new_session e2 c2 uid).1
  ∧ regView (s.create_new_session e1 c1 uid).2 = regView (s.create_new_session e2 c2 uid).2
  ∧ s.end_conversation u1 uid fb = s.end_conversation u2 uid fb
  ∧ (s.create_query_span sp uid q qn).2 = s := by
  refine ⟨?_, ?_, rfl, ?_, rfl, ?_⟩
  · cases hmatch : dictGet uid s.current_sessions with
    | some sess =>
        rw [get_or_create_existing s b1 uid sess hmatch,
          get_or_create_existing s b2 uid sess hmatch]
    | none =>
        simp only [SessionManager.get_or_create_session, hmatch]
  · cases hmatch : dictGet uid s.current_sessions with
    | some sess =>
        rw [get_or_create_existing s b1 uid sess hmatch,
          get_or_create_existing s b2 uid sess hmatch]
    | none =>
        simp only [SessionManager.get_or_create_session, hmatch]
        rw [createTrace_regView, createTrace_regView]
  · show regView (SessionManager.createTrace _ c1 uid) = regView (SessionManager.createTrace _ c2 uid)
    rw [createTrace_regView, createTrace_regView]
  · cases hmatch : dictGet uid s.opik_traces with
    | some t => simp only [SessionManager.create_query_span, hmatch]
    | none => simp only [SessionManager.create_query_span, hmatch]

/-- C10: querying the conversation id of a user with no active session does
not report absence — `get_conversation_id` generates `conv_` followed by 12
hex characters from a fresh nonce, stores it, and returns it, leaving the
(absent) session handle and the query log untouched, so a conversation-id
entry exists with no corresponding session. -/
theorem claim_c10_conversation_id (uid : String) (s : SessionManager)
    (hc : dictGet uid s.conversation_ids = none)
    (hs : dictGet uid s.current_sessions = none) :
    (s.get_conversation_id uid).1 = "conv_" ++ hex12 s.nextNonce
  ∧ (hex12 s.nextNonce).data.length = 12
  ∧ (∀ ch ∈ (hex12 s.nextNonce).data, isHexDigitChar ch = true)
  ∧ dictGet uid ((s.get_conversation_id uid).2).conversation_ids
      = some ("conv_" ++ hex12 s.nextNonce)
  ∧ dictGet uid ((s.get_conversation_id uid).2).current_sessions = none
  ∧ dictGet uid ((s.get_conversation_id uid).2).conversation_queries
      = dictGet uid s.conversation_queries := by
  have hsplit : s.get_conversation_id uid =
      ("conv_" ++ hex12 s.nextNonce,
       { s with conversation_ids := dictInsert uid ("conv_" ++ hex12 s.nextNonce) s.conversation_ids, nextNonce := s.nextNonce + 1 }) := by
    simp only [SessionManager.get_conversation_id, hc]
  rw [hsplit]
  exact ⟨rfl, hex12_length _, hex12_hex _, dictGet_dictInsert_self _ _ _, hs, rfl⟩

theorem claim_c10_conversation_id_witness :
    dictGet "u" SessionManager.init.conversation_ids = none
  ∧ dictGet "u" SessionManager.init.current_sessions = none
  ∧ ((SessionManager.init.get_conversation_id "u").1
        = "conv_" ++ hex12 SessionManager.init.nextNonce
     ∧ (hex12 SessionManager.init.nextNonce).data.length = 12
     ∧ (∀ ch ∈ (hex12 SessionManager.init.nextNonce).data, isHexDigitChar ch = true)
     ∧ dictGet "u" ((SessionManager.init.get_conversation_id "u").2).conversation_ids
         = some ("conv_" ++ hex12 SessionManager.init.nextNonce)
     ∧ dictGet "u" ((SessionManager.init.get_conversation_id "u").2).current_sessions = none
     ∧ dictGet "u" ((SessionManager.init.get_conversation_id "u").2).conversation_queries
         = dictGet "u" SessionManager.init.conversation_queries) :=
  ⟨rfl, rfl, claim_c10_conversation_id "u" SessionManager.init rfl rfl⟩
